import Mathlib

/-!
# Verification of the organizer-pipeline extraction and validation pipeline

Shallow embedding of the natural-language-to-structured-action pipeline of
the organizer-pipeline repository:

* `InputValidator.validate_text` / `InputValidator.validate_tags`
  (src/src/organizer_core/validation/validators.py);
* the pydantic models `CalendarEvent` (src/src/organizer_core/models/calendar.py),
  `TodoItem` (src/src/organizer_core/models/tasks.py), `Contact`, `FileActivity`,
  with the shared `BaseModel.Config` behaviour (extra = "forbid",
  validate_assignment = True) from src/src/organizer_core/models/base.py;
* the extraction engine `extract_information_with_llm` and
  `create_calendar_event` (src/enhanced_personal_assistant.py);
* the persistence adapter `TasksService` (src/src/organizer_api/database/tasks_service.py).

Text is modelled as `List Char`; Python `datetime` values as `Int` epoch
seconds; external library calls (`json.loads`, `dateutil.parser.parse`,
`email_validator`, `os.path.normpath`) as explicit function parameters.
Python exceptions are modelled with `Except`.
-/

namespace Organizer

/-! ## Basic Python string primitives -/

/-- The whitespace characters stripped by Python `str.strip()` (ASCII part). -/
def isPySpace (c : Char) : Bool :=
  c = ' ' || c = '\t' || c = '\n' || c = '\x0d' || c = '\x0b' || c = '\x0c'

/-- Python `str.strip()`: drop leading and trailing whitespace. -/
def pyStrip (l : List Char) : List Char :=
  ((l.dropWhile isPySpace).reverse.dropWhile isPySpace).reverse

/-- Python `str.lower()` (ASCII model, character-wise). -/
def toLowerL (l : List Char) : List Char :=
  l.map Char.toLower

/-- The apostrophe character (escaped by Python `html.escape`). -/
def aposChar : Char := Char.ofNat 39

/-- Character-level translation of Python `html.escape(s, quote=True)`. -/
def escChar (c : Char) : List Char :=
  if c = '&' then "&amp;".toList
  else if c = '<' then "&lt;".toList
  else if c = '>' then "&gt;".toList
  else if c = '"' then "&quot;".toList
  else if c = aposChar then "&#x27;".toList
  else [c]

/-- Python `html.escape(s, quote=True)`: escape `&`, `<`, `>`, `"` and the apostrophe. -/
def htmlEscape : List Char → List Char
  | [] => []
  | c :: rest => escChar c ++ htmlEscape rest

/-- Does `p` occur at the head of `l`? (Python `str.startswith` at one slot.) -/
def leadsL : List Char → List Char → Bool
  | [], _ => true
  | _ :: _, [] => false
  | a :: as, b :: bs => a = b && leadsL as bs

/-- Substring occurrence: Python `pattern in s` / `re.search` for a literal pattern. -/
def occursIn (p : List Char) : List Char → Bool
  | [] => p.isEmpty
  | c :: rest => leadsL p (c :: rest) || occursIn p rest

/-- Python `str.endswith p`. -/
def trailsL (p l : List Char) : Bool :=
  leadsL p.reverse l.reverse

/-! ## ValidationError (src/src/organizer_core/validation/validators.py lines 12-18) -/

/-- `ValidationError(message, field, value)`: carries the message, the field
name and the offending value. -/
structure ValidationError where
  message : String
  field : String
  value : List Char
deriving Repr, DecidableEq

/-! ## InputValidator.validate_text (validators.py lines 30-91) -/

/-- The fixed blacklist `dangerous_patterns` of validators.py lines 74-81. -/
def dangerous_patterns : List (List Char) :=
  ["<script".toList, "javascript:".toList, "data:text/html".toList,
   "vbscript:".toList, "onload=".toList, "onerror=".toList]

/-- `InputValidator.validate_text(text, field_name, min_length, max_length, allow_html)`:
strips whitespace, checks length bounds, HTML-escapes unless `allow_html`,
then rejects if any blacklisted substring occurs in the lowercased text. -/
def validate_text (text : List Char) (field_name : String)
    (min_length max_length : Nat) (allow_html : Bool) :
    Except ValidationError (List Char) :=
  let text := pyStrip text
  if text.length < min_length then
    .error ⟨field_name ++ " must be at least " ++ toString min_length ++
      " characters long", field_name, text⟩
  else if max_length < text.length then
    .error ⟨field_name ++ " must be no more than " ++ toString max_length ++
      " characters long", field_name, text⟩
  else
    let text := if allow_html then text else htmlEscape text
    let text_lower := toLowerL text
    if dangerous_patterns.any (fun p => occursIn p text_lower) then
      .error ⟨field_name ++ " contains potentially dangerous content",
        field_name, text⟩
    else
      .ok text

/-! ## InputValidator.validate_tags (validators.py lines 181-222) -/

/-- The regex `^[a-zA-Z0-9_-]+$` (`TAG_PATTERN`) on a single character. -/
def isTagChar (c : Char) : Bool :=
  ('a' ≤ c && c ≤ 'z') || ('A' ≤ c && c ≤ 'Z') || ('0' ≤ c && c ≤ '9') ||
  c = '_' || c = '-'

/-- Full-string match of `TAG_PATTERN` (`^[a-zA-Z0-9_-]+$`): nonempty, all
characters in the class. -/
def tagMatches (l : List Char) : Bool :=
  !l.isEmpty && l.all isTagChar

/-- The `for tag in tags` loop of `validate_tags`, carrying the
`validated_tags` accumulator. -/
def validateTagsLoop (acc : List (List Char)) :
    List (List Char) → Except ValidationError (List (List Char))
  | [] => .ok acc
  | tag :: rest =>
    let t := toLowerL (pyStrip tag)
    if t.isEmpty then validateTagsLoop acc rest
    else if 30 < t.length then
      .error ⟨"Tag too long (max 30 characters)", "tags", t⟩
    else if !tagMatches t then
      .error ⟨"Tag contains invalid characters. Use only letters, numbers, hyphens, and underscores",
        "tags", t⟩
    else if t ∈ acc then validateTagsLoop acc rest
    else validateTagsLoop (acc ++ [t]) rest

/-- `InputValidator.validate_tags(tags)`: at most 10 tags, then per-tag
strip/lower, drop empties, bound length 30, match `TAG_PATTERN`, deduplicate
preserving first-occurrence order. -/
def validate_tags (tags : List (List Char)) :
    Except ValidationError (List (List Char)) :=
  if 10 < tags.length then
    .error ⟨"Maximum 10 tags allowed", "tags", []⟩
  else validateTagsLoop [] tags

/-! ## Shared pydantic field-constraint helpers (pydantic v1 `Field` bounds;
these built-in constraints run before the custom `@validator` functions). -/

/-- `Field(min_length=minl, max_length=maxl)` on a required string field. -/
def checkLen (field_name : String) (minl maxl : Nat) (v : List Char) :
    Except ValidationError (List Char) :=
  if v.length < minl then
    .error ⟨"ensure this value has at least " ++ toString minl ++ " characters",
      field_name, v⟩
  else if maxl < v.length then
    .error ⟨"ensure this value has at most " ++ toString maxl ++ " characters",
      field_name, v⟩
  else .ok v

/-- `Field(max_length=maxl)` on an optional string field (`None` passes). -/
def checkOptLen (field_name : String) (maxl : Nat) :
    Option (List Char) → Except ValidationError (Option (List Char))
  | none => .ok none
  | some v =>
    if maxl < v.length then
      .error ⟨"ensure this value has at most " ++ toString maxl ++ " characters",
        field_name, v⟩
    else .ok (some v)

/-! ## EventType and CalendarEvent (src/src/organizer_core/models/calendar.py) -/

/-- The member values of the `EventType(str, Enum)` class
(calendar.py lines 13-20).  The model uses `use_enum_values = True`, so a
validated model stores the string value itself. -/
def eventTypeValues : List (List Char) :=
  ["meeting".toList, "task".toList, "reminder".toList,
   "personal".toList, "work".toList, "appointment".toList]

/-- Character class of the local part of the attendee email regex
`^[a-zA-Z0-9._%+-]+@[a-zA-Z0-9.-]+\.[a-zA-Z]{2,}$` (calendar.py line 51). -/
def isEmailLocalChar (c : Char) : Bool :=
  ('a' ≤ c && c ≤ 'z') || ('A' ≤ c && c ≤ 'Z') || ('0' ≤ c && c ≤ '9') ||
  c = '.' || c = '_' || c = '%' || c = '+' || c = '-'

/-- Character class of the domain part of the attendee email regex. -/
def isEmailDomChar (c : Char) : Bool :=
  ('a' ≤ c && c ≤ 'z') || ('A' ≤ c && c ≤ 'Z') || ('0' ≤ c && c ≤ '9') ||
  c = '.' || c = '-'

/-- ASCII letter (the `[a-zA-Z]` class used for the final email segment). -/
def isAsciiLetter (c : Char) : Bool :=
  ('a' ≤ c && c ≤ 'z') || ('A' ≤ c && c ≤ 'Z')

/-- Split a list at the first occurrence of `c`, returning the parts before
and after it. -/
def breakAt (c : Char) : List Char → Option (List Char × List Char)
  | [] => none
  | d :: rest =>
    if d = c then some ([], rest)
    else (breakAt c rest).map (fun p => (d :: p.1, p.2))

/-- Full-string match of the attendee email regex
`^[a-zA-Z0-9._%+-]+@[a-zA-Z0-9.-]+\.[a-zA-Z]{2,}$`: nonempty local part,
`@`, nonempty domain, a dot, then at least two letters to the end (the
greedy domain of the regex backtracks to the last dot). -/
def emailMatches (l : List Char) : Bool :=
  match breakAt '@' l with
  | none => false
  | some (loc, dom) =>
    match breakAt '.' dom.reverse with
    | none => false
    | some (revTld, revPre) =>
      !loc.isEmpty && loc.all isEmailLocalChar &&
      !revPre.isEmpty && revPre.all isEmailDomChar &&
      2 ≤ revTld.length && revTld.all isAsciiLetter

/-- The validated `CalendarEvent` pydantic model (calendar.py lines 23-72),
including the `id` / `created_at` / `updated_at` fields inherited from
`BaseModel` (base.py lines 16-18). -/
structure CalendarEvent where
  id : Option (List Char)
  created_at : Option Int
  updated_at : Option Int
  title : List Char
  description : Option (List Char)
  start_time : Int
  end_time : Option Int
  location : Option (List Char)
  event_type : List Char
  attendees : List (List Char)
  reminder_minutes : Option Int
  recurrence_rule : Option (List Char)
  calendar_name : Option (List Char)
  all_day : Bool
deriving Repr, DecidableEq

/-- Construction of a `CalendarEvent`: pydantic validates fields in
declaration order, running `Field` constraints first and the custom
`@validator` functions after them (`sanitize_title` escapes and strips the title,
`validate_end_time` requires `end_time > start_time`, `validate_attendees`
checks every attendee against the email regex). -/
def mkCalendarEvent (id : Option (List Char)) (created_at updated_at : Option Int)
    (title : List Char) (description : Option (List Char))
    (start_time : Int) (end_time : Option Int)
    (location : Option (List Char)) (event_type : List Char)
    (attendees : List (List Char)) (reminder_minutes : Option Int)
    (recurrence_rule : Option (List Char)) (calendar_name : Option (List Char))
    (all_day : Bool) : Except ValidationError CalendarEvent := do
  let title ← checkLen "title" 1 200 title
  let title := htmlEscape (pyStrip title)
  let description ← checkOptLen "description" 1000 description
  let end_time ← match end_time with
    | some v =>
      if v ≤ start_time then
        Except.error ⟨"End time must be after start time", "end_time", []⟩
      else pure (some v)
    | none => pure (none : Option Int)
  let location ← checkOptLen "location" 500 location
  let event_type ←
    if event_type ∈ eventTypeValues then pure event_type
    else Except.error ⟨"value is not a valid enumeration member", "event_type",
      event_type⟩
  let attendees ←
    if 50 < attendees.length then
      Except.error ⟨"ensure this value has at most 50 items", "attendees", []⟩
    else if attendees.all emailMatches then pure attendees
    else Except.error ⟨"Invalid email format", "attendees", []⟩
  let reminder_minutes ← match reminder_minutes with
    | some v =>
      if v < 0 || 10080 < v then
        Except.error ⟨"reminder_minutes out of range", "reminder_minutes", []⟩
      else pure (some v)
    | none => pure (none : Option Int)
  let recurrence_rule ← checkOptLen "recurrence_rule" 200 recurrence_rule
  let calendar_name ← checkOptLen "calendar_name" 100 calendar_name
  pure { id := id, created_at := created_at, updated_at := updated_at,
         title := title, description := description, start_time := start_time,
         end_time := end_time, location := location, event_type := event_type,
         attendees := attendees, reminder_minutes := reminder_minutes,
         recurrence_rule := recurrence_rule, calendar_name := calendar_name,
         all_day := all_day }

/-- Re-assignment of `end_time` on an existing model: with
`validate_assignment = True` (base.py line 27) the `validate_end_time`
validator re-runs against the other current field values. -/
def CalendarEvent.assignEndTime (ev : CalendarEvent) (v : Option Int) :
    Except ValidationError CalendarEvent :=
  match v with
  | some t =>
    if t ≤ ev.start_time then
      .error ⟨"End time must be after start time", "end_time", []⟩
    else .ok { ev with end_time := some t }
  | none => .ok { ev with end_time := none }

/-! ## TaskStatus, TaskPriority, TodoItem (src/src/organizer_core/models/tasks.py) -/

/-- Member values of `TaskStatus(str, Enum)` (tasks.py lines 13-19). -/
def taskStatusValues : List (List Char) :=
  ["pending".toList, "in_progress".toList, "completed".toList,
   "cancelled".toList, "on_hold".toList]

/-- Member values of `TaskPriority(str, Enum)` (tasks.py lines 22-27). -/
def taskPriorityValues : List (List Char) :=
  ["low".toList, "medium".toList, "high".toList, "urgent".toList]

/-- The per-tag loop of `TodoItem.validate_tags` (tasks.py lines 45-61):
strip/lower, skip empties, bound 30, `TAG_PATTERN`, dedup preserving order.
Unlike `InputValidator.validate_tags` there is no 10-item check inside the
validator (that is `max_items=10` on the field). -/
def todoTagsLoop (acc : List (List Char)) :
    List (List Char) → Except ValidationError (List (List Char))
  | [] => .ok acc
  | tag :: rest =>
    let t := toLowerL (pyStrip tag)
    if t.isEmpty then todoTagsLoop acc rest
    else if 30 < t.length then
      .error ⟨"Tag too long", "tags", t⟩
    else if !tagMatches t then
      .error ⟨"Invalid tag format", "tags", t⟩
    else if t ∈ acc then todoTagsLoop acc rest
    else todoTagsLoop (acc ++ [t]) rest

/-- The validated payload fields of `TodoItem` (tasks.py lines 30-98),
excluding the three `BaseModel` fields. -/
structure TodoCore where
  title : List Char
  description : Option (List Char)
  status : List Char
  priority : List Char
  due_date : Option Int
  completed_at : Option Int
  tags : List (List Char)
  assigned_to : Option (List Char)
  estimated_hours : Option Int
deriving Repr, DecidableEq

/-- The validated `TodoItem` pydantic model, `BaseModel` fields included. -/
structure TodoItem where
  id : Option (List Char)
  created_at : Option Int
  updated_at : Option Int
  title : List Char
  description : Option (List Char)
  status : List Char
  priority : List Char
  due_date : Option Int
  completed_at : Option Int
  tags : List (List Char)
  assigned_to : Option (List Char)
  estimated_hours : Option Int
deriving Repr, DecidableEq

/-- Validation of the `TodoItem` payload fields, in the pydantic declaration
order: title (bounds then `sanitize_text`), description (bound then
`sanitize_text`), status and priority (enum membership, `use_enum_values`),
due_date, completed_at (`validate_completion`: only allowed when status is
completed), tags (`max_items=10` then `validate_tags`), assigned_to,
estimated_hours (`ge=0, le=1000`). -/
def mkTodoCore (title : List Char) (description : Option (List Char))
    (status priority : List Char) (due_date completed_at : Option Int)
    (tags : List (List Char)) (assigned_to : Option (List Char))
    (estimated_hours : Option Int) : Except ValidationError TodoCore := do
  let title ← checkLen "title" 1 200 title
  let title := htmlEscape (pyStrip title)
  let description ← checkOptLen "description" 1000 description
  let description := description.map (fun d => htmlEscape (pyStrip d))
  let status ←
    if status ∈ taskStatusValues then pure status
    else Except.error ⟨"value is not a valid enumeration member", "status", status⟩
  let priority ←
    if priority ∈ taskPriorityValues then pure priority
    else Except.error ⟨"value is not a valid enumeration member", "priority",
      priority⟩
  let completed_at ← match completed_at with
    | some v =>
      if status ≠ "completed".toList then
        Except.error ⟨"completed_at can only be set when status is completed",
          "completed_at", []⟩
      else pure (some v)
    | none => pure (none : Option Int)
  let tags ←
    if 10 < tags.length then
      Except.error ⟨"ensure this value has at most 10 items", "tags", []⟩
    else todoTagsLoop [] tags
  let assigned_to ← checkOptLen "assigned_to" 100 assigned_to
  let estimated_hours ← match estimated_hours with
    | some v =>
      if v < 0 || 1000 < v then
        Except.error ⟨"estimated_hours out of range", "estimated_hours", []⟩
      else pure (some v)
    | none => pure (none : Option Int)
  pure { title := title, description := description, status := status,
         priority := priority, due_date := due_date, completed_at := completed_at,
         tags := tags, assigned_to := assigned_to,
         estimated_hours := estimated_hours }

/-- Assemble a `TodoItem` from the `BaseModel` fields (which have no
validators of their own) and a validated payload. -/
def assembleTodo (id : Option (List Char)) (created_at updated_at : Option Int)
    (core : TodoCore) : TodoItem :=
  { id := id, created_at := created_at, updated_at := updated_at,
    title := core.title, description := core.description, status := core.status,
    priority := core.priority, due_date := core.due_date,
    completed_at := core.completed_at, tags := core.tags,
    assigned_to := core.assigned_to, estimated_hours := core.estimated_hours }

/-- Construction of a `TodoItem` (pydantic `TodoItem(...)`). -/
def mkTodoItem (id : Option (List Char)) (created_at updated_at : Option Int)
    (title : List Char) (description : Option (List Char))
    (status priority : List Char) (due_date completed_at : Option Int)
    (tags : List (List Char)) (assigned_to : Option (List Char))
    (estimated_hours : Option Int) : Except ValidationError TodoItem :=
  (mkTodoCore title description status priority due_date completed_at tags
    assigned_to estimated_hours).map (assembleTodo id created_at updated_at)

/-! ## The extraction engine `extract_information_with_llm`
(src/enhanced_personal_assistant.py lines 579-698) -/

/-- Minimal JSON value model for the parsed LLM payload. -/
inductive JsonVal where
  | str (s : List Char)
  | num (n : Int)
  | boolean (b : Bool)
  | null
  | arr (xs : List JsonVal)
  | obj (fields : List (String × JsonVal))
deriving Repr

/-- The code-fence clean-up applied to the raw LLM response before
`json.loads`: `strip()`, drop a leading <code>```json</code> marker (7
characters), drop a trailing <code>```</code> marker (3 characters). -/
def cleanLLMResponse (llm_response : List Char) : List Char :=
  let json_str := pyStrip llm_response
  let json_str :=
    if leadsL "```json".toList json_str then json_str.drop 7 else json_str
  let json_str :=
    if trailsL "```".toList json_str then json_str.take (json_str.length - 3)
    else json_str
  json_str

/-- The five collection keys back-filled after a successful parse. -/
def expectedCollectionKeys : List String :=
  ["calendar_events", "todos", "contacts", "file_actions", "queries"]

/-- The deterministic failure bundle returned when `json.loads` raises
`JSONDecodeError`: every collection key maps to an empty list and `response`
to the fixed apology string. -/
def failureBundle : List (String × JsonVal) :=
  [("calendar_events", .arr []), ("todos", .arr []), ("contacts", .arr []),
   ("file_actions", .arr []), ("queries", .arr []),
   ("response",
    .str "I had trouble understanding that request. Could you rephrase it?".toList)]

/-- Back-fill of missing keys after a successful parse: each missing
collection key is set to `[]`, a missing `response` to the generic
acknowledgement. -/
def backfillDefaults (result : List (String × JsonVal)) :
    List (String × JsonVal) :=
  let result := expectedCollectionKeys.foldl
    (fun r k => if r.any (fun kv => kv.1 = k) then r else r ++ [(k, .arr [])])
    result
  if result.any (fun kv => kv.1 = "response") then result
  else result ++ [("response", .str "I\x27ve processed your request.".toList)]

/-- `extract_information_with_llm`, modelled from the point where the LLM
response string is in hand.  `jsonParse` stands for `json.loads` restricted
to top-level objects: `none` models a raised `JSONDecodeError`.  The
function is total: every parse failure is caught and turned into
`failureBundle`, never re-raised. -/
def extract_information_with_llm
    (jsonParse : List Char → Option (List (String × JsonVal)))
    (llm_response : List Char) : List (String × JsonVal) :=
  let json_str := cleanLLMResponse llm_response
  match jsonParse json_str with
  | some result => backfillDefaults result
  | none => failureBundle

/-! ## `create_calendar_event` (src/enhanced_personal_assistant.py lines 700-737)

This variant builds the plain `@dataclass CalendarEvent` of
enhanced_personal_assistant.py lines 57-69 (no pydantic validation). -/

/-- The `@dataclass CalendarEvent` of enhanced_personal_assistant.py. -/
structure EventRecord where
  title : List Char
  start_time : Int
  end_time : Int
  description : List Char
  location : List Char
  attendees : List (List Char)
  uid : List Char
  recurring : Bool
  recurrence_rule : Option (List Char)
  created_at : Int
  updated_at : Int
deriving Repr, DecidableEq

/-- One event-candidate JSON object from the extraction bundle.  `none`
models both a missing key and JSON `null`; `some []` is an empty string
(also falsy under `event_data.get`). -/
structure EventData where
  title : Option (List Char)
  start_time : Option (List Char)
  end_time : Option (List Char)
  description : Option (List Char)
  location : Option (List Char)
  attendees : Option (List (List Char))
  recurring : Option Bool
  recurrence_rule : Option (List Char)
deriving Repr

/-- `create_calendar_event(event_data)`: parse `start_time` with
`dateutil.parser.parse` (modelled by the `parseDate` parameter); take
`end_time` from the payload when `event_data.get("end_time")` is truthy,
otherwise default it to `start_time + timedelta(hours=1)` (3600 seconds);
build the dataclass.  Any `KeyError` / parse error is caught and the
function returns `False`, modelled as `none`. -/
def create_calendar_event (parseDate : List Char → Option Int)
    (uid : List Char) (now : Int) (event_data : EventData) :
    Option EventRecord :=
  match event_data.start_time with
  | none => none
  | some st_str =>
    match parseDate st_str with
    | none => none
    | some st =>
      let end_parsed : Option Int :=
        match event_data.end_time with
        | some s => if s.isEmpty then some (st + 3600) else parseDate s
        | none => some (st + 3600)
      match end_parsed, event_data.title with
      | some et, some title =>
        some { title := title, start_time := st, end_time := et,
               description := (event_data.description).getD [],
               location := (event_data.location).getD [],
               attendees := (event_data.attendees).getD [],
               uid := uid,
               recurring := (event_data.recurring).getD false,
               recurrence_rule := event_data.recurrence_rule,
               created_at := now, updated_at := now }
      | _, _ => none

/-! ## TasksService (src/src/organizer_api/database/tasks_service.py)

The SQLite `tasks` table is modelled as a list of rows in insertion order;
`SELECT ... WHERE id = ?` with `fetchone` returns the first matching row.
`json.dumps` / `json.loads` on the tags column and `isoformat` /
`dateutil.parser.parse` on datetime columns are inverse pairs and are
modelled as the identity on the stored values. -/

/-- One row of the `tasks` table (columns in the INSERT order of
`create_task`).  The `tags` column is `NULL` when the list was empty. -/
structure TaskRow where
  id : List Char
  title : List Char
  description : Option (List Char)
  status : List Char
  priority : List Char
  due_date : Option Int
  completed_at : Option Int
  tags : Option (List (List Char))
  assigned_to : Option (List Char)
  estimated_hours : Option Int
  created_at : Int
  updated_at : Int
deriving Repr, DecidableEq

/-- `TasksService._row_to_task(row)` (lines 233-268): re-construct a
`TodoItem` from the row, running the full pydantic validation again. -/
def row_to_task (r : TaskRow) : Except ValidationError TodoItem :=
  mkTodoItem (some r.id) (some r.created_at) (some r.updated_at)
    r.title r.description r.status r.priority r.due_date r.completed_at
    (r.tags.getD []) r.assigned_to r.estimated_hours

/-- `TasksService.get_task(db, task_id)` (lines 78-98): `none` when no row
matches; otherwise the (possibly failing) reconstruction of the row. -/
def get_task (db : List TaskRow) (task_id : List Char) :
    Option (Except ValidationError TodoItem) :=
  (db.find? (fun r => r.id = task_id)).map row_to_task

/-- `TasksService.create_task(db, task)` (lines 20-76): assign a fresh id
when `task.id` is falsy (`None` or the empty string), stamp `created_at` and
`updated_at` with `now`, serialize and insert the row, and return the
(mutated) task.  `genId` models `str(uuid.uuid4())`. -/
def create_task (db : List TaskRow) (genId : List Char) (now : Int)
    (task : TodoItem) : TodoItem × List TaskRow :=
  let task :=
    if task.id = none ∨ task.id = some [] then { task with id := some genId }
    else task
  let task := { task with created_at := some now, updated_at := some now }
  let row : TaskRow :=
    { id := task.id.getD [], title := task.title,
      description := task.description, status := task.status,
      priority := task.priority, due_date := task.due_date,
      completed_at := task.completed_at,
      tags := if task.tags.isEmpty then none else some task.tags,
      assigned_to := task.assigned_to,
      estimated_hours := task.estimated_hours,
      created_at := now, updated_at := now }
  (task, db ++ [row])

/-- `TasksService.update_task(db, task_id, task)` (lines 140-207): look the
task up first; on not-found return `None` with the store untouched;
otherwise overwrite every payload column of the matching row (the id and
`created_at` columns are not in the UPDATE list) and return the task with
`updated_at` re-stamped and its id forced to `task_id`. -/
def update_task (db : List TaskRow) (task_id : List Char) (now : Int)
    (task : TodoItem) :
    Except ValidationError (Option TodoItem) × List TaskRow :=
  match get_task db task_id with
  | none => (.ok none, db)
  | some (.error e) => (.error e, db)
  | some (.ok _) =>
    let task := { task with updated_at := some now, id := some task_id }
    let db2 := db.map (fun r =>
      if r.id = task_id then
        { r with
          title := task.title, description := task.description,
          status := task.status, priority := task.priority,
          due_date := task.due_date, completed_at := task.completed_at,
          tags := if task.tags.isEmpty then none else some task.tags,
          assigned_to := task.assigned_to,
          estimated_hours := task.estimated_hours, updated_at := now }
      else r)
    (.ok (some task), db2)

/-- `TasksService.delete_task(db, task_id)` (lines 209-231): look the task
up first; on not-found return `False` with the store untouched; otherwise
delete the matching rows and return `True`. -/
def delete_task (db : List TaskRow) (task_id : List Char) :
    Except ValidationError Bool × List TaskRow :=
  match get_task db task_id with
  | none => (.ok false, db)
  | some (.error e) => (.error e, db)
  | some (.ok _) => (.ok true, db.filter (fun r => r.id ≠ task_id))

/-! ## Contact (src/src/organizer_core/models/contacts.py) -/

/-- ASCII digit. -/
def isDigitChar (c : Char) : Bool := '0' ≤ c && c ≤ '9'

/-- ASCII letter or digit. -/
def isAlnum (c : Char) : Bool := isAsciiLetter c || isDigitChar c

/-- Split a character list at every dot. -/
def splitDots : List Char → List (List Char)
  | [] => [[]]
  | c :: rest =>
    let r := splitDots rest
    if c = '.' then [] :: r
    else
      match r with
      | h :: t => (c :: h) :: t
      | [] => [[c]]

/-- One domain label of the URL regex:
`[A-Z0-9](?:[A-Z0-9-]{0,61}[A-Z0-9])?` with `re.IGNORECASE`. -/
def labelMatches (l : List Char) : Bool :=
  match l with
  | [] => false
  | c :: rest =>
    isAlnum c &&
    (rest.isEmpty ||
      (rest.length ≤ 62 &&
       (match rest.getLast? with
        | some d => isAlnum d
        | none => false) &&
       rest.dropLast.all (fun e => isAlnum e || e = '-')))

/-- The domain alternative of the URL regex:
`(?:LABEL\.)+[A-Z]{2,6}\.?` — one or more labels, a 2-6 letter final
segment, optionally a trailing dot. -/
def domainMatches (h : List Char) : Bool :=
  let parts := splitDots h
  let parts := if parts.getLast? = some [] then parts.dropLast else parts
  2 ≤ parts.length &&
  parts.dropLast.all labelMatches &&
  (match parts.getLast? with
   | some tld => 2 ≤ tld.length && tld.length ≤ 6 && tld.all isAsciiLetter
   | none => false)

/-- The IP alternative of the URL regex: `\d{1,3}\.\d{1,3}\.\d{1,3}\.\d{1,3}`. -/
def ipMatches (h : List Char) : Bool :=
  let parts := splitDots h
  parts.length = 4 &&
  parts.all (fun p => !p.isEmpty && p.length ≤ 3 && p.all isDigitChar)

/-- The URL regex shared by `InputValidator.validate_url` (validators.py
lines 310-316) and `Contact.validate_social_profiles` (contacts.py):
`^https?://(domain|localhost|ip)(?::\d+)?(?:/?|[/?]\S+)$`. -/
def urlMatches (url : List Char) : Bool :=
  let rest? : Option (List Char) :=
    if leadsL "https://".toList url then some (url.drop 8)
    else if leadsL "http://".toList url then some (url.drop 7)
    else none
  match rest? with
  | none => false
  | some rest =>
    let host := rest.takeWhile (fun c => c ≠ ':' && c ≠ '/' && c ≠ '?')
    let after := rest.drop host.length
    let hostOk := domainMatches host || host = "localhost".toList || ipMatches host
    let portPath : Option (List Char) :=
      match after with
      | ':' :: tl =>
        let digits := tl.takeWhile isDigitChar
        if digits.isEmpty then none else some (tl.drop digits.length)
      | _ => some after
    match portPath with
    | none => false
    | some path =>
      hostOk &&
      (path.isEmpty || path = ['/'] ||
        (match path with
         | c :: tl => (c = '/' || c = '?') && !tl.isEmpty &&
             tl.all (fun d => !isPySpace d)
         | [] => false))

/-- Characters kept by the phone clean-up
`re.sub(r'[^\d\+\s\-\(\)]', '', v.strip())` of `Contact.validate_phone`. -/
def isPhoneKeepChar (c : Char) : Bool :=
  isDigitChar c || c = '+' || isPySpace c || c = '-' || c = '(' || c = ')'

/-- Full-string match of the phone pattern `^[\+]?[\d\s\-\(\)]{7,20}$`. -/
def phonePatternMatches (p : List Char) : Bool :=
  let rest := if p.head? = some '+' then p.drop 1 else p
  7 ≤ rest.length && rest.length ≤ 20 &&
  rest.all (fun c => isDigitChar c || isPySpace c || c = '-' || c = '(' || c = ')')

/-- The platform allow-list of `Contact.validate_social_profiles`. -/
def allowedPlatforms : List (List Char) :=
  ["twitter".toList, "linkedin".toList, "github".toList, "facebook".toList,
   "instagram".toList, "youtube".toList, "website".toList]

/-- `Contact.validate_social_profiles`: keep only allow-listed platforms
whose stripped URL matches the URL regex; silently drop the rest. -/
def filterSocialProfiles (m : List (List Char × List Char)) :
    List (List Char × List Char) :=
  m.foldl (fun acc kv =>
    let platform := toLowerL kv.1
    let url := pyStrip kv.2
    if platform ∈ allowedPlatforms && urlMatches url then acc ++ [(platform, url)]
    else acc) []

/-- The validated `Contact` pydantic model. -/
structure Contact where
  id : Option (List Char)
  created_at : Option Int
  updated_at : Option Int
  name : List Char
  email : Option (List Char)
  phone : Option (List Char)
  address : Option (List Char)
  company : Option (List Char)
  birthday : Option Int
  notes : Option (List Char)
  tags : List (List Char)
  social_profiles : List (List Char × List Char)
deriving Repr, DecidableEq

/-- Construction of a `Contact`.  `emailStrOk` models the external
`pydantic.EmailStr` / email-validator library check. -/
def mkContact (emailStrOk : List Char → Bool)
    (id : Option (List Char)) (created_at updated_at : Option Int)
    (name : List Char) (email phone address company : Option (List Char))
    (birthday : Option Int) (notes : Option (List Char))
    (tags : List (List Char))
    (social_profiles : List (List Char × List Char)) :
    Except ValidationError Contact := do
  let name ← checkLen "name" 1 100 name
  let name := htmlEscape (pyStrip name)
  let email ← match email with
    | some e =>
      if emailStrOk e then pure (some e)
      else Except.error ⟨"value is not a valid email address", "email", e⟩
    | none => pure (none : Option (List Char))
  let phone ← checkOptLen "phone" 20 phone
  let phone ← match phone with
    | some v =>
      let phone_clean := (pyStrip v).filter isPhoneKeepChar
      if phonePatternMatches phone_clean then pure (some phone_clean)
      else Except.error ⟨"Invalid phone number format", "phone", v⟩
    | none => pure (none : Option (List Char))
  let address ← checkOptLen "address" 300 address
  let company ← checkOptLen "company" 100 company
  let company := company.map (fun v => htmlEscape (pyStrip v))
  let notes ← checkOptLen "notes" 1000 notes
  let notes := notes.map (fun v => htmlEscape (pyStrip v))
  let tags ←
    if 10 < tags.length then
      Except.error ⟨"ensure this value has at most 10 items", "tags", []⟩
    else todoTagsLoop [] tags
  pure { id := id, created_at := created_at, updated_at := updated_at,
         name := name, email := email, phone := phone, address := address,
         company := company, birthday := birthday, notes := notes,
         tags := tags,
         social_profiles := filterSocialProfiles social_profiles }

/-! ## FileActivity (src/src/organizer_core/models/files.py) -/

/-- Member values of `FileAction(str, Enum)`. -/
def fileActionValues : List (List Char) :=
  ["created".toList, "modified".toList, "deleted".toList,
   "moved".toList, "accessed".toList]

/-- Member values of `FileType(str, Enum)`. -/
def fileTypeValues : List (List Char) :=
  ["document".toList, "image".toList, "video".toList, "audio".toList,
   "archive".toList, "code".toList, "data".toList, "other".toList]

/-- The safe filepath class `^[a-zA-Z0-9._/\-\s]+$` on one character. -/
def isSafePathChar (c : Char) : Bool :=
  isAlnum c || c = '.' || c = '_' || c = '/' || c = '-' || isPySpace c

/-- Allowed absolute/traversal prefixes of `FileActivity.validate_filepath`. -/
def allowedPathDirs : List (List Char) :=
  ["data/".toList, "uploads/".toList, "documents/".toList, "temp/".toList]

/-- Lowercase hex digit or uppercase hex letter (`[a-fA-F0-9]`). -/
def isHexChar (c : Char) : Bool :=
  isDigitChar c || ('a' ≤ c && c ≤ 'f') || ('A' ≤ c && c ≤ 'F')

/-- Full-string match of the MIME pattern `^[a-z]+/[a-z0-9][a-z0-9\-\+\.]*$`. -/
def mimeMatches (m : List Char) : Bool :=
  match breakAt '/' m with
  | none => false
  | some (pre, post) =>
    !pre.isEmpty && pre.all (fun c => 'a' ≤ c && c ≤ 'z') &&
    (match post with
     | [] => false
     | c :: rest =>
       (('a' ≤ c && c ≤ 'z') || isDigitChar c) &&
       rest.all (fun d => ('a' ≤ d && d ≤ 'z') || isDigitChar d ||
         d = '-' || d = '+' || d = '.'))

/-- The validated `FileActivity` pydantic model. -/
structure FileActivity where
  id : Option (List Char)
  created_at : Option Int
  updated_at : Option Int
  filepath : List Char
  action : List Char
  file_size : Option Int
  file_type : Option (List Char)
  mime_type : Option (List Char)
  checksum : Option (List Char)
  description : Option (List Char)
deriving Repr, DecidableEq

/-- Construction of a `FileActivity`.  `normpath` models the external
`os.path.normpath`. -/
def mkFileActivity (normpath : List Char → List Char)
    (id : Option (List Char)) (created_at updated_at : Option Int)
    (filepath : List Char) (action : List Char) (file_size : Option Int)
    (file_type mime_type checksum description : Option (List Char)) :
    Except ValidationError FileActivity := do
  let filepath ← checkLen "filepath" 1 500 filepath
  let normalized := normpath filepath
  let filepath ←
    if (occursIn "..".toList normalized || leadsL "/".toList normalized) &&
       !(allowedPathDirs.any (fun a => leadsL a normalized)) then
      Except.error ⟨"Invalid file path", "filepath", filepath⟩
    else if 500 < normalized.length then
      Except.error ⟨"File path too long", "filepath", normalized⟩
    else if !(!normalized.isEmpty && normalized.all isSafePathChar) then
      Except.error ⟨"Invalid characters in file path", "filepath", filepath⟩
    else pure normalized
  let action ←
    if action ∈ fileActionValues then pure action
    else Except.error ⟨"value is not a valid enumeration member", "action", action⟩
  let file_size ← match file_size with
    | some v =>
      if v < 0 then Except.error ⟨"file_size out of range", "file_size", []⟩
      else pure (some v)
    | none => pure (none : Option Int)
  let file_type ← match file_type with
    | some v =>
      if v ∈ fileTypeValues then pure (some v)
      else Except.error ⟨"value is not a valid enumeration member", "file_type", v⟩
    | none => pure (none : Option (List Char))
  let mime_type ← checkOptLen "mime_type" 100 mime_type
  let mime_type ← match mime_type with
    | some v =>
      if mimeMatches v then pure (some v)
      else Except.error ⟨"Invalid MIME type format", "mime_type", v⟩
    | none => pure (none : Option (List Char))
  let checksum ← checkOptLen "checksum" 64 checksum
  let checksum ← match checksum with
    | some v =>
      if v.length = 64 && v.all isHexChar then pure (some (toLowerL v))
      else Except.error ⟨"Invalid SHA-256 checksum format", "checksum", v⟩
    | none => pure (none : Option (List Char))
  let description ← checkOptLen "description" 500 description
  pure { id := id, created_at := created_at, updated_at := updated_at,
         filepath := filepath, action := action, file_size := file_size,
         file_type := file_type, mime_type := mime_type, checksum := checksum,
         description := description }

/-! ## Construction from raw dicts under `extra = "forbid"`
(src/src/organizer_core/models/base.py lines 20-31)

A payload handed to a pydantic model is a dict of key/value pairs.  With
`extra = "forbid"` any key that is not a declared field makes construction
raise a `ValidationError` instead of being dropped. -/

/-- An untyped value in an input dict. -/
inductive FieldVal where
  | str (s : List Char)
  | int (n : Int)
  | dt (n : Int)
  | boolean (b : Bool)
  | strList (l : List (List Char))
  | strMap (m : List (List Char × List Char))
  | nullV
deriving Repr

/-- A raw input payload: key/value pairs. -/
abbrev PyDict := List (String × FieldVal)

/-- Look up a key in a payload (first occurrence). -/
def getField (d : PyDict) (k : String) : Option FieldVal :=
  (d.find? (fun kv => kv.1 = k)).map Prod.snd

/-- A required string field: missing or null or wrongly typed is an error. -/
def reqStrField (d : PyDict) (k : String) :
    Except ValidationError (List Char) :=
  match getField d k with
  | some (.str s) => .ok s
  | some _ => .error ⟨"str type expected", k, []⟩
  | none => .error ⟨"field required", k, []⟩

/-- A required datetime field. -/
def reqDtField (d : PyDict) (k : String) : Except ValidationError Int :=
  match getField d k with
  | some (.dt n) => .ok n
  | some _ => .error ⟨"datetime type expected", k, []⟩
  | none => .error ⟨"field required", k, []⟩

/-- An optional string field (default `None`). -/
def optStrField (d : PyDict) (k : String) :
    Except ValidationError (Option (List Char)) :=
  match getField d k with
  | some (.str s) => .ok (some s)
  | some .nullV => .ok none
  | some _ => .error ⟨"str type expected", k, []⟩
  | none => .ok none

/-- An optional datetime field (default `None`). -/
def optDtField (d : PyDict) (k : String) :
    Except ValidationError (Option Int) :=
  match getField d k with
  | some (.dt n) => .ok (some n)
  | some .nullV => .ok none
  | some _ => .error ⟨"datetime type expected", k, []⟩
  | none => .ok none

/-- An optional integer field with a default for a missing key. -/
def intFieldD (d : PyDict) (k : String) (dflt : Option Int) :
    Except ValidationError (Option Int) :=
  match getField d k with
  | some (.int n) => .ok (some n)
  | some .nullV => .ok none
  | some _ => .error ⟨"int type expected", k, []⟩
  | none => .ok dflt

/-- A string field with a non-null default for a missing key. -/
def strFieldD (d : PyDict) (k : String) (dflt : List Char) :
    Except ValidationError (List Char) :=
  match getField d k with
  | some (.str s) => .ok s
  | some _ => .error ⟨"str type expected", k, []⟩
  | none => .ok dflt

/-- A string-list field defaulting to `[]` for a missing key. -/
def strListFieldD (d : PyDict) (k : String) :
    Except ValidationError (List (List Char)) :=
  match getField d k with
  | some (.strList l) => .ok l
  | some _ => .error ⟨"list type expected", k, []⟩
  | none => .ok []

/-- A bool field with a default for a missing key. -/
def boolFieldD (d : PyDict) (k : String) (dflt : Bool) :
    Except ValidationError Bool :=
  match getField d k with
  | some (.boolean b) => .ok b
  | some _ => .error ⟨"bool type expected", k, []⟩
  | none => .ok dflt

/-- A string-map field defaulting to `{}` for a missing key. -/
def strMapFieldD (d : PyDict) (k : String) :
    Except ValidationError (List (List Char × List Char)) :=
  match getField d k with
  | some (.strMap m) => .ok m
  | some _ => .error ⟨"dict type expected", k, []⟩
  | none => .ok []

/-- The three field names every model inherits from `BaseModel`. -/
def baseFieldNames : List String := ["id", "created_at", "updated_at"]

/-- Declared fields of `CalendarEvent`. -/
def calendarEventFieldNames : List String :=
  baseFieldNames ++ ["title", "description", "start_time", "end_time",
    "location", "event_type", "attendees", "reminder_minutes",
    "recurrence_rule", "calendar_name", "all_day"]

/-- Declared fields of `TodoItem`. -/
def todoItemFieldNames : List String :=
  baseFieldNames ++ ["title", "description", "status", "priority", "due_date",
    "completed_at", "tags", "assigned_to", "estimated_hours"]

/-- Declared fields of `Contact`. -/
def contactFieldNames : List String :=
  baseFieldNames ++ ["name", "email", "phone", "address", "company",
    "birthday", "notes", "tags", "social_profiles"]

/-- Declared fields of `FileActivity`. -/
def fileActivityFieldNames : List String :=
  baseFieldNames ++ ["filepath", "action", "file_size", "file_type",
    "mime_type", "checksum", "description"]

/-- The `extra = "forbid"` check: the keys of the payload that are not
declared fields of the model. -/
def extraKeys (declared : List String) (d : PyDict) : List String :=
  (d.map Prod.fst).filter (fun k => k ∉ declared)

/-- `CalendarEvent(**d)`: forbid unknown keys, then extract and validate
every declared field (defaults per calendar.py lines 28-38). -/
def mkCalendarEventFromDict (d : PyDict) :
    Except ValidationError CalendarEvent :=
  if !(extraKeys calendarEventFieldNames d).isEmpty then
    .error ⟨"extra fields not permitted", "__root__", []⟩
  else do
    let id ← optStrField d "id"
    let created_at ← optDtField d "created_at"
    let updated_at ← optDtField d "updated_at"
    let title ← reqStrField d "title"
    let description ← optStrField d "description"
    let start_time ← reqDtField d "start_time"
    let end_time ← optDtField d "end_time"
    let location ← optStrField d "location"
    let event_type ← strFieldD d "event_type" "personal".toList
    let attendees ← strListFieldD d "attendees"
    let reminder_minutes ← intFieldD d "reminder_minutes" (some 15)
    let recurrence_rule ← optStrField d "recurrence_rule"
    let calendar_name ← (optStrField d "calendar_name").map
      (fun v => match getField d "calendar_name" with
        | none => some "Personal".toList
        | _ => v)
    let all_day ← boolFieldD d "all_day" false
    mkCalendarEvent id created_at updated_at title description start_time
      end_time location event_type attendees reminder_minutes recurrence_rule
      calendar_name all_day

/-- `TodoItem(**d)`: forbid unknown keys, then extract and validate every
declared field (defaults per tasks.py lines 35-43). -/
def mkTodoItemFromDict (d : PyDict) : Except ValidationError TodoItem :=
  if !(extraKeys todoItemFieldNames d).isEmpty then
    .error ⟨"extra fields not permitted", "__root__", []⟩
  else do
    let id ← optStrField d "id"
    let created_at ← optDtField d "created_at"
    let updated_at ← optDtField d "updated_at"
    let title ← reqStrField d "title"
    let description ← optStrField d "description"
    let status ← strFieldD d "status" "pending".toList
    let priority ← strFieldD d "priority" "medium".toList
    let due_date ← optDtField d "due_date"
    let completed_at ← optDtField d "completed_at"
    let tags ← strListFieldD d "tags"
    let assigned_to ← optStrField d "assigned_to"
    let estimated_hours ← intFieldD d "estimated_hours" none
    mkTodoItem id created_at updated_at title description status priority
      due_date completed_at tags assigned_to estimated_hours

/-- `Contact(**d)`: forbid unknown keys, then extract and validate every
declared field. -/
def mkContactFromDict (emailStrOk : List Char → Bool) (d : PyDict) :
    Except ValidationError Contact :=
  if !(extraKeys contactFieldNames d).isEmpty then
    .error ⟨"extra fields not permitted", "__root__", []⟩
  else do
    let id ← optStrField d "id"
    let created_at ← optDtField d "created_at"
    let updated_at ← optDtField d "updated_at"
    let name ← reqStrField d "name"
    let email ← optStrField d "email"
    let phone ← optStrField d "phone"
    let address ← optStrField d "address"
    let company ← optStrField d "company"
    let birthday ← optDtField d "birthday"
    let notes ← optStrField d "notes"
    let tags ← strListFieldD d "tags"
    let social_profiles ← strMapFieldD d "social_profiles"
    mkContact emailStrOk id created_at updated_at name email phone address
      company birthday notes tags social_profiles

/-- `FileActivity(**d)`: forbid unknown keys, then extract and validate
every declared field. -/
def mkFileActivityFromDict (normpath : List Char → List Char) (d : PyDict) :
    Except ValidationError FileActivity :=
  if !(extraKeys fileActivityFieldNames d).isEmpty then
    .error ⟨"extra fields not permitted", "__root__", []⟩
  else do
    let id ← optStrField d "id"
    let created_at ← optDtField d "created_at"
    let updated_at ← optDtField d "updated_at"
    let filepath ← reqStrField d "filepath"
    let action ← reqStrField d "action"
    let file_size ← intFieldD d "file_size" none
    let file_type ← optStrField d "file_type"
    let mime_type ← optStrField d "mime_type"
    let checksum ← optStrField d "checksum"
    let description ← optStrField d "description"
    mkFileActivity normpath id created_at updated_at filepath action
      file_size file_type mime_type checksum description

/-! ## Small helper definitions used by the statements below -/

/-- Did the modelled Python call raise? -/
def isErr : Except ValidationError α → Bool
  | .error _ => true
  | .ok _ => false

instance {ε α : Type} [DecidableEq ε] [DecidableEq α] :
    DecidableEq (Except ε α) := fun x y =>
  match x, y with
  | .error a, .error b => decidable_of_iff (a = b) (by simp)
  | .ok a, .ok b => decidable_of_iff (a = b) (by simp)
  | .error _, .ok _ => isFalse (fun hc => Except.noConfusion hc)
  | .ok _, .error _ => isFalse (fun hc => Except.noConfusion hc)

/-- The payload fields of a `TodoItem`, as a `TodoCore`. -/
def coreOf (t : TodoItem) : TodoCore :=
  { title := t.title, description := t.description, status := t.status,
    priority := t.priority, due_date := t.due_date,
    completed_at := t.completed_at, tags := t.tags,
    assigned_to := t.assigned_to, estimated_hours := t.estimated_hours }

/-- Concrete event record used to witness the `end_time` defaulting rule. -/
def c2Event : EventRecord :=
  { title := ['T'], start_time := 100, end_time := 3700, description := [],
    location := [], attendees := [], uid := ['u'], recurring := false,
    recurrence_rule := none, created_at := 0, updated_at := 0 }

/-- Concrete event-candidate payload with `start_time` but no `end_time`. -/
def c2Data : EventData :=
  { title := some ['T'], start_time := some "100".toList, end_time := none,
    description := none, location := none, attendees := none,
    recurring := none, recurrence_rule := none }

/-- The `TodoItem` obtained by validating the raw title `A & B`
(single-escaped by `sanitize_text`). -/
def c9Task : TodoItem :=
  { id := none, created_at := none, updated_at := none,
    title := "A &amp; B".toList, description := none,
    status := "pending".toList, priority := "medium".toList,
    due_date := none, completed_at := none, tags := [], assigned_to := none,
    estimated_hours := none }

/-- What `get_task` returns after storing `c9Task`: the title has been
HTML-escaped a second time by `_row_to_task`. -/
def c9TaskRead : TodoItem :=
  { id := some "id1".toList, created_at := some 0, updated_at := some 0,
    title := "A &amp;amp; B".toList, description := none,
    status := "pending".toList, priority := "medium".toList,
    due_date := none, completed_at := none, tags := [], assigned_to := none,
    estimated_hours := none }

/-- A concrete `tasks` table row (used to witness not-found behaviour). -/
def c8Row : TaskRow :=
  { id := "row-a".toList, title := ['T'], description := none,
    status := "pending".toList, priority := "low".toList, due_date := none,
    completed_at := none, tags := none, assigned_to := none,
    estimated_hours := none, created_at := 0, updated_at := 0 }

/-- A concrete validated `CalendarEvent` with both times present. -/
def c3Event : CalendarEvent :=
  { id := none, created_at := none, updated_at := none, title := ['T'],
    description := none, start_time := 0, end_time := some 10,
    location := none, event_type := "personal".toList, attendees := [],
    reminder_minutes := none, recurrence_rule := none, calendar_name := none,
    all_day := false }

/-- A concrete valid `TodoItem` whose fields are all fixed points of
re-validation (title free of HTML-escapable characters). -/
def c9PlainTask : TodoItem :=
  { id := none, created_at := none, updated_at := none,
    title := "Buy milk".toList, description := none,
    status := "pending".toList, priority := "medium".toList,
    due_date := some 86400, completed_at := none, tags := ["work".toList],
    assigned_to := none, estimated_hours := some 2 }

/-! # Theorems -/

/-- C1: every LLM response whose cleaned-up form `json.loads` cannot parse
makes `extract_information_with_llm` return the deterministic failure
bundle (all collection keys empty, `response` the fixed apology); the
function is total, so no exception reaches the caller. -/
theorem C1_parse_failure_returns_bundle
    (jsonParse : List Char → Option (List (String × JsonVal)))
    (llm_response : List Char)
    (h : jsonParse (cleanLLMResponse llm_response) = none) :
    extract_information_with_llm jsonParse llm_response = failureBundle := by
  unfold extract_information_with_llm
  simp [h]

/-- Witness for C1 at the concrete unparseable response `not json at all`. -/
theorem C1_witness :
    (fun _ : List Char => (none : Option (List (String × JsonVal))))
        (cleanLLMResponse "not json at all".toList) = none ∧
    extract_information_with_llm (fun _ => none) "not json at all".toList
      = failureBundle :=
  ⟨rfl, C1_parse_failure_returns_bundle (fun _ => none) _ rfl⟩

/-- C2: an event-candidate payload with a `start_time` but no `end_time`
key (or a JSON-null `end_time`) produces, whenever `create_calendar_event`
succeeds, an event whose `end_time` is exactly `start_time` plus one hour
(`timedelta(hours=1)` = 3600 seconds). -/
theorem C2_missing_end_time_defaults_one_hour
    (parseDate : List Char → Option Int) (uid : List Char) (now : Int)
    (d : EventData) (hend : d.end_time = none) (ev : EventRecord)
    (h : create_calendar_event parseDate uid now d = some ev) :
    ev.end_time = ev.start_time + 3600 := by
  obtain ⟨dt, dst, det, dd, dl, da, dr, drr⟩ := d
  replace hend : det = none := hend
  subst hend
  cases dst with
  | none => exact Option.noConfusion h
  | some s =>
    cases hp : parseDate s with
    | none => simp [create_calendar_event, hp] at h
    | some st =>
      cases dt with
      | none => simp [create_calendar_event, hp] at h
      | some title =>
        simp only [create_calendar_event, hp, Option.some.injEq] at h
        subst h
        rfl

/-- Witness for C2: at a concrete payload the created event ends 3600
seconds after it starts. -/
theorem C2_witness :
    c2Data.end_time = none ∧ c2Event.end_time = c2Event.start_time + 3600 :=
  ⟨rfl, C2_missing_end_time_defaults_one_hour (fun _ => some 100) ['u'] 0
    c2Data rfl c2Event (by decide)⟩

/-- C8: when no stored row has the requested id, `update_task` returns
`None` and `delete_task` returns `False`; neither raises and in both cases
the stored collection is unchanged. -/
theorem C8_notfound_returns_false_store_unchanged
    (db : List TaskRow) (task_id : List Char) (now : Int) (task : TodoItem)
    (h : ∀ r ∈ db, r.id ≠ task_id) :
    update_task db task_id now task = (.ok none, db) ∧
    delete_task db task_id = (.ok false, db) := by
  have hg : get_task db task_id = none := by
    unfold get_task
    rw [List.find?_eq_none.mpr]
    · rfl
    · intro r hr
      simpa using h r hr
  exact ⟨by simp [update_task, hg], by simp [delete_task, hg]⟩

/-- Witness for C8 on a one-row store and an absent id. -/
theorem C8_witness :
    (∀ r ∈ [c8Row], r.id ≠ "row-b".toList) ∧
    update_task [c8Row] "row-b".toList 7 c9PlainTask = (.ok none, [c8Row]) ∧
    delete_task [c8Row] "row-b".toList = (.ok false, [c8Row]) := by
  have h : ∀ r ∈ [c8Row], r.id ≠ "row-b".toList := by decide
  exact ⟨h,
    C8_notfound_returns_false_store_unchanged [c8Row] _ 7 c9PlainTask h⟩

/-- The `extra = "forbid"` key filter is nonempty as soon as the payload
contains an undeclared key. -/
theorem extraKeys_not_empty {declared : List String} {d : PyDict}
    {k : String} {v : FieldVal} (hmem : (k, v) ∈ d) (hk : k ∉ declared) :
    (extraKeys declared d).isEmpty = false := by
  have hmem2 : k ∈ extraKeys declared d := by
    unfold extraKeys
    refine List.mem_filter.mpr ⟨?_, by simpa using hk⟩
    exact List.mem_map_of_mem Prod.fst hmem
  cases hE : (extraKeys declared d).isEmpty with
  | false => rfl
  | true =>
    rw [List.isEmpty_iff] at hE
    rw [hE] at hmem2
    cases hmem2

/-- C10: each of the four entity models rejects a payload containing a key
that is not a declared field — `extra = "forbid"` makes construction raise
instead of silently dropping the key. -/
theorem C10_unknown_keys_rejected (emailStrOk : List Char → Bool)
    (normpath : List Char → List Char) (d : PyDict) (k : String)
    (v : FieldVal) (hmem : (k, v) ∈ d) :
    (k ∉ calendarEventFieldNames → isErr (mkCalendarEventFromDict d) = true) ∧
    (k ∉ todoItemFieldNames → isErr (mkTodoItemFromDict d) = true) ∧
    (k ∉ contactFieldNames → isErr (mkContactFromDict emailStrOk d) = true) ∧
    (k ∉ fileActivityFieldNames → isErr (mkFileActivityFromDict normpath d) = true) := by
  refine ⟨fun hk => ?_, fun hk => ?_, fun hk => ?_, fun hk => ?_⟩
  · have hne := extraKeys_not_empty hmem hk
    simp [mkCalendarEventFromDict, hne, isErr]
  · have hne := extraKeys_not_empty hmem hk
    simp [mkTodoItemFromDict, hne, isErr]
  · have hne := extraKeys_not_empty hmem hk
    simp [mkContactFromDict, hne, isErr]
  · have hne := extraKeys_not_empty hmem hk
    simp [mkFileActivityFromDict, hne, isErr]

/-- Witness for C10: a concrete payload carrying the undeclared key `evil`
is rejected by all four models. -/
theorem C10_witness :
    (("evil", FieldVal.nullV) ∈
      [("title", FieldVal.str ['T']), ("evil", FieldVal.nullV)]) ∧
    isErr (mkCalendarEventFromDict
      [("title", FieldVal.str ['T']), ("evil", FieldVal.nullV)]) = true ∧
    isErr (mkTodoItemFromDict
      [("title", FieldVal.str ['T']), ("evil", FieldVal.nullV)]) = true ∧
    isErr (mkContactFromDict (fun _ => true)
      [("title", FieldVal.str ['T']), ("evil", FieldVal.nullV)]) = true ∧
    isErr (mkFileActivityFromDict (fun p => p)
      [("title", FieldVal.str ['T']), ("evil", FieldVal.nullV)]) = true := by
  have hmem : ("evil", FieldVal.nullV) ∈
      [("title", FieldVal.str ['T']), ("evil", FieldVal.nullV)] := by simp
  have h := C10_unknown_keys_rejected (fun _ => true) (fun p => p)
    [("title", FieldVal.str ['T']), ("evil", FieldVal.nullV)] "evil"
    FieldVal.nullV hmem
  exact ⟨hmem, h.1 (by decide), h.2.1 (by decide), h.2.2.1 (by decide),
    h.2.2.2 (by decide)⟩

/-- C7 counterexample: the claim admits `deadline` as a seventh event type,
but `EventType` has six members and construction with `deadline` raises. -/
theorem C7_counterexample :
    isErr (mkCalendarEvent none none none ['T'] none 0 none none
      "deadline".toList [] none none none false) = true := by decide

/-- C7 (amended): `event_type` accepts exactly the six enum values
`meeting`, `task`, `reminder`, `personal`, `work`, `appointment`; any other
string (in particular `deadline`) is rejected with a validation error. -/
theorem C7_event_type_accepts_exactly_six (et : List Char) :
    isErr (mkCalendarEvent none none none ['T'] none 0 none none et [] none
      none none false) = false ↔ et ∈ eventTypeValues := by
  by_cases h : et ∈ eventTypeValues <;>
    simp [mkCalendarEvent, checkLen, checkOptLen, h, isErr, pure, Except.pure,
      bind, Except.bind]

/-- Any tag whose stripped, lowercased form is longer than 30 characters
makes the validation loop raise, whatever the accumulator. -/
theorem validateTagsLoop_err_of_long (rest : List (List Char)) :
    ∀ (acc : List (List Char)) (t : List Char), t ∈ rest →
    30 < (toLowerL (pyStrip t)).length →
    isErr (validateTagsLoop acc rest) = true := by
  induction rest with
  | nil => intro acc t ht; cases ht
  | cons tag rest ih =>
    intro acc t ht hlen
    rcases List.mem_cons.mp ht with rfl | hmem
    · have hne : (toLowerL (pyStrip t)).isEmpty = false := by
        cases hu : toLowerL (pyStrip t) with
        | nil => rw [hu] at hlen; simp at hlen
        | cons a l => rfl
      simp [validateTagsLoop, hne, hlen, isErr]
    · simp only [validateTagsLoop]
      split
      · exact ih acc t hmem hlen
      · split
        · simp [isErr]
        · split
          · simp [isErr]
          · split
            · exact ih acc t hmem hlen
            · exact ih _ t hmem hlen

/-- Any tag whose stripped, lowercased form is nonempty and fails
`TAG_PATTERN` makes the validation loop raise, whatever the accumulator. -/
theorem validateTagsLoop_err_of_bad (rest : List (List Char)) :
    ∀ (acc : List (List Char)) (t : List Char), t ∈ rest →
    (toLowerL (pyStrip t)).isEmpty = false →
    tagMatches (toLowerL (pyStrip t)) = false →
    isErr (validateTagsLoop acc rest) = true := by
  induction rest with
  | nil => intro acc t ht; cases ht
  | cons tag rest ih =>
    intro acc t ht hne hm
    rcases List.mem_cons.mp ht with rfl | hmem
    · simp only [validateTagsLoop, hne, Bool.false_eq_true, if_false]
      split
      · simp [isErr]
      · simp [hm, isErr]
    · simp only [validateTagsLoop]
      split
      · exact ih acc t hmem hne hm
      · split
        · simp [isErr]
        · split
          · simp [isErr]
          · split
            · exact ih acc t hmem hne hm
            · exact ih _ t hmem hne hm

/-- C4 counterexample: a raw tag of 31 characters (30 letters and one
trailing space) is accepted by `validate_tags`, because the 30-character
bound is checked only after the tag has been stripped; the claim requires a
`ValidationError` for every tag exceeding 30 characters. -/
theorem C4_counterexample :
    (List.replicate 30 'a' ++ [' ']).length = 31 ∧
    validate_tags [List.replicate 30 'a' ++ [' ']]
      = .ok [List.replicate 30 'a'] := by decide

/-- C4 (amended): `validate_tags` deduplicates preserving first-occurrence
order (`["work","work","urgent"]` validates to `["work","urgent"]`), and it
raises a `ValidationError` when the list has more than 10 items, when any
tag exceeds 30 characters *after* stripping and lowercasing, or when any
tag whose stripped lowercased form is nonempty fails `^[a-zA-Z0-9_-]+$`;
whitespace-only tags are silently dropped rather than rejected. -/
theorem C4_tags_dedup_and_bounds :
    validate_tags ["work".toList, "work".toList, "urgent".toList]
      = .ok ["work".toList, "urgent".toList]
    ∧ (∀ tags, 10 < tags.length → isErr (validate_tags tags) = true)
    ∧ (∀ tags t, t ∈ tags → 30 < (toLowerL (pyStrip t)).length →
        isErr (validate_tags tags) = true)
    ∧ (∀ tags t, t ∈ tags → (toLowerL (pyStrip t)).isEmpty = false →
        tagMatches (toLowerL (pyStrip t)) = false →
        isErr (validate_tags tags) = true) := by
  refine ⟨by decide, fun tags h => ?_, fun tags t ht hlen => ?_,
    fun tags t ht hne hm => ?_⟩
  · simp [validate_tags, h, isErr]
  · unfold validate_tags
    split
    · simp [isErr]
    · exact validateTagsLoop_err_of_long tags [] t ht hlen
  · unfold validate_tags
    split
    · simp [isErr]
    · exact validateTagsLoop_err_of_bad tags [] t ht hne hm

/-- Witness for C4 at concrete inputs for each raise condition. -/
theorem C4_witness :
    (10 < (List.replicate 11 ['a']).length ∧
      isErr (validate_tags (List.replicate 11 ['a'])) = true) ∧
    (List.replicate 31 'a' ∈ [List.replicate 31 'a'] ∧
      30 < (toLowerL (pyStrip (List.replicate 31 'a'))).length ∧
      isErr (validate_tags [List.replicate 31 'a']) = true) ∧
    ("b!".toList ∈ ["b!".toList] ∧
      (toLowerL (pyStrip "b!".toList)).isEmpty = false ∧
      tagMatches (toLowerL (pyStrip "b!".toList)) = false ∧
      isErr (validate_tags ["b!".toList]) = true) :=
  ⟨⟨by decide, C4_tags_dedup_and_bounds.2.1 (List.replicate 11 ['a']) (by decide)⟩,
   ⟨by decide, by decide,
    C4_tags_dedup_and_bounds.2.2.1 [List.replicate 31 'a']
      (List.replicate 31 'a') (by decide) (by decide)⟩,
   ⟨by decide, by decide, by decide,
    C4_tags_dedup_and_bounds.2.2.2 ["b!".toList] "b!".toList
      (by decide) (by decide) (by decide)⟩⟩

/-! ## String lemmas for the `validate_text` claims -/

/-- The empty pattern occurs in every string. -/
theorem occursIn_nil (l : List Char) : occursIn [] l = true := by
  induction l with
  | nil => rfl
  | cons c rest ih => simp [occursIn, ih]

/-- A list is a lead of itself extended by anything. -/
theorem leadsL_append_self (p t : List Char) : leadsL p (p ++ t) = true := by
  induction p with
  | nil => rfl
  | cons a as ih => simp [leadsL, ih]

/-- An explicit decomposition makes `occursIn` find the pattern. -/
theorem occursIn_decomp (a p b : List Char) :
    occursIn p (a ++ (p ++ b)) = true := by
  induction a with
  | nil =>
    cases p with
    | nil => simpa using occursIn_nil b
    | cons c ps =>
      simp only [List.nil_append, occursIn, Bool.or_eq_true]
      exact Or.inl (leadsL_append_self (c :: ps) b)
  | cons x a ih =>
    simp only [List.cons_append, occursIn, Bool.or_eq_true]
    exact Or.inr ih

/-- `dropWhile` cannot erase an occurrence whose characters all fail the
predicate. -/
theorem dropWhile_keeps_occurrence (p : Char → Bool) (q v : List Char)
    (hq : q ≠ []) (hqp : ∀ c ∈ q, p c = false) :
    ∀ u : List Char, ∃ u2, (u ++ (q ++ v)).dropWhile p = u2 ++ (q ++ v) := by
  intro u
  induction u with
  | nil =>
    refine ⟨[], ?_⟩
    cases q with
    | nil => exact absurd rfl hq
    | cons c qs =>
      have hc : p c = false := hqp c (List.mem_cons_self c qs)
      simp [List.dropWhile_cons, hc]
  | cons a u ih =>
    by_cases ha : p a = true
    · obtain ⟨u2, hu2⟩ := ih
      exact ⟨u2, by simp [List.dropWhile_cons, ha, hu2]⟩
    · exact ⟨a :: u, by simp [List.dropWhile_cons, Bool.eq_false_iff.mpr ha]⟩

/-- `pyStrip` cannot erase an occurrence of a whitespace-free pattern. -/
theorem pyStrip_keeps_occurrence (q : List Char) (hq : q ≠ [])
    (hqp : ∀ c ∈ q, isPySpace c = false) (u v : List Char) :
    ∃ u2 v2, pyStrip (u ++ (q ++ v)) = u2 ++ (q ++ v2) := by
  obtain ⟨u2, hu2⟩ := dropWhile_keeps_occurrence isPySpace q v hq hqp u
  have hqrev : q.reverse ≠ [] := by simpa using hq
  have hqrevp : ∀ c ∈ q.reverse, isPySpace c = false := by
    intro c hc; exact hqp c (List.mem_reverse.mp hc)
  obtain ⟨w, hw⟩ := dropWhile_keeps_occurrence isPySpace q.reverse u2.reverse
    hqrev hqrevp v.reverse
  refine ⟨u2, w.reverse, ?_⟩
  unfold pyStrip
  rw [hu2]
  have hrev : (u2 ++ (q ++ v)).reverse = v.reverse ++ (q.reverse ++ u2.reverse) := by
    simp [List.reverse_append, List.append_assoc]
  rw [hrev, hw]
  simp [List.reverse_append, List.append_assoc]

/-- `htmlEscape` distributes over append. -/
theorem htmlEscape_append (a b : List Char) :
    htmlEscape (a ++ b) = htmlEscape a ++ htmlEscape b := by
  induction a with
  | nil => rfl
  | cons c rest ih => simp [htmlEscape, ih, List.append_assoc]

/-- `htmlEscape` fixes strings of unescapable characters. -/
theorem htmlEscape_fixed_of (l : List Char)
    (h : ∀ c ∈ l, escChar c = [c]) : htmlEscape l = l := by
  induction l with
  | nil => rfl
  | cons c rest ih =>
    rw [htmlEscape, h c (List.mem_cons_self c rest),
      ih (fun d hd => h d (List.mem_cons_of_mem c hd))]
    rfl

/-- Python whitespace characters are unchanged by `Char.toLower`. -/
theorem toLower_of_isPySpace (c : Char) (h : isPySpace c = true) :
    Char.toLower c = c := by
  have hc := h
  simp only [isPySpace, Bool.or_eq_true, decide_eq_true_eq] at hc
  rcases hc with ((((rfl | rfl) | rfl) | rfl) | rfl) | rfl <;> decide

/-- The characters escaped by `escChar`. -/
theorem escapable_cases (c : Char) (h : escChar c ≠ [c]) :
    c = '&' ∨ c = '<' ∨ c = '>' ∨ c = '"' ∨ c = aposChar := by
  unfold escChar at h
  split_ifs at h with h1 h2 h3 h4 h5
  · exact Or.inl h1
  · exact Or.inr (Or.inl h2)
  · exact Or.inr (Or.inr (Or.inl h3))
  · exact Or.inr (Or.inr (Or.inr (Or.inl h4)))
  · exact Or.inr (Or.inr (Or.inr (Or.inr h5)))
  · exact absurd rfl h

/-- Escapable characters are unchanged by `Char.toLower`. -/
theorem toLower_of_escapable (c : Char) (h : escChar c ≠ [c]) :
    Char.toLower c = c := by
  rcases escapable_cases c h with rfl | rfl | rfl | rfl | rfl <;> decide

/-- `escChar` never returns the empty list. -/
theorem escChar_len_pos (c : Char) : 0 < (escChar c).length := by
  unfold escChar
  split_ifs <;> simp

/-- `htmlEscape` never shortens a string. -/
theorem htmlEscape_len_ge (l : List Char) :
    l.length ≤ (htmlEscape l).length := by
  induction l with
  | nil => simp [htmlEscape]
  | cons c rest ih =>
    rw [htmlEscape, List.length_append, List.length_cons]
    have := escChar_len_pos c
    omega

/-- A string fixed by `htmlEscape` consists of unescapable characters. -/
theorem htmlEscape_eq_self_pointwise (l : List Char)
    (h : htmlEscape l = l) : ∀ c ∈ l, escChar c = [c] := by
  induction l with
  | nil => intro c hc; cases hc
  | cons c rest ih =>
    rw [htmlEscape] at h
    have hlen := congrArg List.length h
    simp only [List.length_append, List.length_cons] at hlen
    have h1 : (escChar c).length = 1 := by
      have h2 := htmlEscape_len_ge rest
      have h3 := escChar_len_pos c
      omega
    obtain ⟨d, hd⟩ := List.length_eq_one.mp h1
    rw [hd] at h
    simp only [List.cons_append, List.nil_append, List.cons.injEq] at h
    obtain ⟨rfl, hrest⟩ := h
    intro x hx
    rcases List.mem_cons.mp hx with rfl | hxr
    · exact hd
    · exact ih hrest x hxr

/-- The expansion of an escapable character starts with an ampersand. -/
theorem amp_mem_escChar (c : Char) (h : escChar c ≠ [c]) : '&' ∈ escChar c := by
  rcases escapable_cases c h with rfl | rfl | rfl | rfl | rfl <;> decide

/-- Escaping a string containing an escapable character introduces an
ampersand. -/
theorem amp_mem_htmlEscape (l : List Char) (c : Char) (hc : c ∈ l)
    (h : escChar c ≠ [c]) : '&' ∈ htmlEscape l := by
  induction l with
  | nil => cases hc
  | cons d rest ih =>
    rw [htmlEscape]
    rcases List.mem_cons.mp hc with rfl | hcr
    · exact List.mem_append_left _ (amp_mem_escChar c h)
    · exact List.mem_append_right _ (ih hcr)

/-- `dropWhile` is idempotent. -/
theorem dropWhile_idem (p : Char → Bool) (l : List Char) :
    (l.dropWhile p).dropWhile p = l.dropWhile p := by
  induction l with
  | nil => rfl
  | cons c rest ih =>
    by_cases h : p c = true
    · simp [List.dropWhile_cons, h, ih]
    · simp [List.dropWhile_cons, h]

/-- `dropWhile` never lengthens a list. -/
theorem length_dropWhile_le_aux (p : Char → Bool) (l : List Char) :
    (l.dropWhile p).length ≤ l.length := by
  induction l with
  | nil => simp
  | cons c rest ih =>
    by_cases h : p c = true
    · rw [List.dropWhile_cons, if_pos h]
      simp only [List.length_cons]
      omega
    · rw [List.dropWhile_cons, if_neg (by simpa using h)]

/-- The head of a `dropWhile`-fixed nonempty list fails the predicate. -/
theorem head_fails_of_dropWhile_eq (p : Char → Bool) (c : Char)
    (l : List Char) (h : (c :: l).dropWhile p = c :: l) : p c = false := by
  by_contra hc
  have hc2 : p c = true := by
    cases hpc : p c with
    | true => rfl
    | false => exact absurd hpc hc
  rw [List.dropWhile_cons, if_pos hc2] at h
  have h4 := congrArg List.length h
  have h5 := length_dropWhile_le_aux p l
  simp only [List.length_cons] at h4
  omega

/-- `dropWhile` drops nothing from the tail of its own result: taking a
prefix of a `dropWhile`-fixed list keeps it fixed. -/
theorem dropWhile_fixed_of_prefix_fixed (p : Char → Bool) (b s : List Char)
    (h : (b ++ s).dropWhile p = b ++ s) : b.dropWhile p = b := by
  cases b with
  | nil => rfl
  | cons c bs =>
    have hc : p c = false := head_fails_of_dropWhile_eq p c (bs ++ s) h
    simp [List.dropWhile_cons, hc]

/-- Every list is a whitespace prefix followed by its `dropWhile`. -/
theorem dropWhile_gives_suffix (p : Char → Bool) (l : List Char) :
    ∃ t, l = t ++ l.dropWhile p := by
  induction l with
  | nil => exact ⟨[], rfl⟩
  | cons c rest ih =>
    by_cases hc : p c = true
    · obtain ⟨t, ht⟩ := ih
      refine ⟨c :: t, ?_⟩
      rw [List.dropWhile_cons, if_pos hc, List.cons_append, ← ht]
    · refine ⟨[], ?_⟩
      rw [List.dropWhile_cons, if_neg (by simpa using hc), List.nil_append]

/-- `pyStrip` is idempotent. -/
theorem pyStrip_idem (l : List Char) : pyStrip (pyStrip l) = pyStrip l := by
  unfold pyStrip
  generalize hA : l.dropWhile isPySpace = A
  generalize hB : (A.reverse.dropWhile isPySpace).reverse = B
  have hArev : A.reverse.dropWhile isPySpace = B.reverse := by
    rw [← hB, List.reverse_reverse]
  have hAfix : A.dropWhile isPySpace = A := by
    rw [← hA, dropWhile_idem]
  obtain ⟨t, ht⟩ := dropWhile_gives_suffix isPySpace A.reverse
  rw [hArev] at ht
  have hs : A = B ++ t.reverse := by
    have h2 := congrArg List.reverse ht
    simpa [List.reverse_append] using h2
  have hBfix : B.dropWhile isPySpace = B :=
    dropWhile_fixed_of_prefix_fixed isPySpace B t.reverse (by rw [← hs, hAfix])
  rw [hBfix]
  have hBrev : B.reverse.dropWhile isPySpace = B.reverse := by
    rw [← hArev, dropWhile_idem]
  rw [hBrev, List.reverse_reverse]

/-- A successful `validate_text` call returns the (possibly escaped)
stripped text, within the length bounds, whose lowercased form is free of
every blacklisted substring. -/
theorem validate_text_ok_elim (s : List Char) (fn : String)
    (minl maxl : Nat) (flag : Bool) (out : List Char)
    (h : validate_text s fn minl maxl flag = .ok out) :
    out = (if flag then pyStrip s else htmlEscape (pyStrip s)) ∧
    ¬((pyStrip s).length < minl) ∧ ¬(maxl < (pyStrip s).length) ∧
    dangerous_patterns.any (fun p => occursIn p (toLowerL out)) = false := by
  simp only [validate_text] at h
  by_cases hc1 : (pyStrip s).length < minl
  · rw [if_pos hc1] at h
    exact absurd h (by simp)
  rw [if_neg hc1] at h
  by_cases hc2 : maxl < (pyStrip s).length
  · rw [if_pos hc2] at h
    exact absurd h (by simp)
  rw [if_neg hc2] at h
  by_cases hc3 : dangerous_patterns.any (fun p => occursIn p (toLowerL
      (if flag then pyStrip s else htmlEscape (pyStrip s)))) = true
  · rw [if_pos hc3] at h
    exact absurd h (by simp)
  · rw [if_neg hc3] at h
    have hout := Except.ok.inj h
    subst hout
    refine ⟨rfl, hc1, hc2, ?_⟩
    simpa using hc3

/-- `validate_text` raises whenever the scan of the processed text finds a
blacklisted substring. -/
theorem validate_text_err_of_scan (s : List Char) (fn : String)
    (minl maxl : Nat) (flag : Bool)
    (h : dangerous_patterns.any (fun p =>
      occursIn p (toLowerL
        (if flag then pyStrip s else htmlEscape (pyStrip s)))) = true) :
    isErr (validate_text s fn minl maxl flag) = true := by
  simp only [validate_text]
  by_cases hc1 : (pyStrip s).length < minl
  · rw [if_pos hc1]
    rfl
  rw [if_neg hc1]
  by_cases hc2 : maxl < (pyStrip s).length
  · rw [if_pos hc2]
    rfl
  · rw [if_neg hc2, if_pos h]
    rfl

/-- The occurrence of a whitespace-free pattern (escape-free when escaping
applies) in the input survives to the scan, so `validate_text` raises. -/
theorem validate_text_err_of_occurrence (p : List Char)
    (hp : p ∈ dangerous_patterns) (hpne : p ≠ [])
    (hpns : ∀ c ∈ p, isPySpace c = false)
    (fn : String) (minl maxl : Nat) (flag : Bool)
    (u q v : List Char) (hq : toLowerL q = p)
    (hesc : flag = false → ∀ c ∈ q, escChar c = [c]) :
    isErr (validate_text (u ++ (q ++ v)) fn minl maxl flag) = true := by
  have hq2 : List.map Char.toLower q = p := hq
  have hqne : q ≠ [] := by
    intro hq0
    rw [hq0] at hq2
    exact hpne hq2.symm
  have hqns : ∀ c ∈ q, isPySpace c = false := by
    intro c hc
    cases h2 : isPySpace c with
    | false => rfl
    | true =>
      have hcl : Char.toLower c = c := toLower_of_isPySpace c h2
      have hcp : c ∈ p := by
        rw [← hq2]
        exact hcl ▸ List.mem_map_of_mem Char.toLower hc
      rw [← h2, hpns c hcp]
  obtain ⟨u2, v2, hstrip⟩ := pyStrip_keeps_occurrence q hqne hqns u v
  apply validate_text_err_of_scan
  rw [hstrip]
  apply List.any_eq_true.mpr
  refine ⟨p, hp, ?_⟩
  cases flag with
  | true =>
    have hmap : toLowerL (u2 ++ (q ++ v2))
        = toLowerL u2 ++ (p ++ toLowerL v2) := by
      unfold toLowerL
      rw [List.map_append, List.map_append, hq2]
    simp only [if_true]
    rw [hmap]
    exact occursIn_decomp _ _ _
  | false =>
    have hqesc := hesc rfl
    have hescape : htmlEscape (u2 ++ (q ++ v2))
        = htmlEscape u2 ++ (q ++ htmlEscape v2) := by
      rw [htmlEscape_append, htmlEscape_append, htmlEscape_fixed_of q hqesc]
    have hmap : toLowerL (htmlEscape u2 ++ (q ++ htmlEscape v2))
        = toLowerL (htmlEscape u2) ++ (p ++ toLowerL (htmlEscape v2)) := by
      unfold toLowerL
      rw [List.map_append, List.map_append, hq2]
    simp only [Bool.false_eq_true, if_false]
    rw [hescape, hmap]
    exact occursIn_decomp _ _ _

/-- C5 counterexample: an input containing `<script` is *not* rejected when
`allow_html=False` — the scan runs on the HTML-escaped text, where `<` has
become `&lt;`, so the input is escaped and accepted. -/
theorem C5_counterexample :
    validate_text "<script".toList "text" 0 1000 false
      = .ok "&lt;script".toList := by decide

/-- C5 (amended): the dangerous-substring scan runs on the processed text
(stripped, and HTML-escaped unless `allow_html`).  Consequently every input
containing `javascript:` or `onload=` case-insensitively is rejected
regardless of `allow_html` (these patterns contain no escapable character);
an input containing `<script` is rejected when `allow_html=True`, while
with `allow_html=False` escaping rewrites `<` so the scan no longer finds
it; and every accepted output is free of all blacklisted substrings. -/
theorem C5_scan_rejects_post_escape :
    (∀ (fn : String) (minl maxl : Nat) (flag : Bool) (u q v : List Char),
      toLowerL q = "javascript:".toList →
      isErr (validate_text (u ++ (q ++ v)) fn minl maxl flag) = true)
    ∧ (∀ (fn : String) (minl maxl : Nat) (flag : Bool) (u q v : List Char),
      toLowerL q = "onload=".toList →
      isErr (validate_text (u ++ (q ++ v)) fn minl maxl flag) = true)
    ∧ (∀ (fn : String) (minl maxl : Nat) (u q v : List Char),
      toLowerL q = "<script".toList →
      isErr (validate_text (u ++ (q ++ v)) fn minl maxl true) = true)
    ∧ (∀ (s : List Char) (fn : String) (minl maxl : Nat) (flag : Bool)
        (out : List Char), validate_text s fn minl maxl flag = .ok out →
      ∀ p ∈ dangerous_patterns, occursIn p (toLowerL out) = false) := by
  refine ⟨fun fn minl maxl flag u q v hq => ?_,
    fun fn minl maxl flag u q v hq => ?_,
    fun fn minl maxl u q v hq => ?_,
    fun s fn minl maxl flag out h => ?_⟩
  · refine validate_text_err_of_occurrence "javascript:".toList (by decide)
      (by decide) (by decide) fn minl maxl flag u q v hq ?_
    intro _ c hc
    cases h2 : escChar c == [c] with
    | true => exact eq_of_beq h2
    | false =>
      have hne : escChar c ≠ [c] := by
        intro he
        rw [he] at h2
        simp at h2
      have hcl := toLower_of_escapable c hne
      have hcp : c ∈ "javascript:".toList := by
        rw [← hq]
        exact hcl ▸ List.mem_map_of_mem Char.toLower hc
      have hnotin : c ∉ "javascript:".toList := by
        rcases escapable_cases c hne with rfl | rfl | rfl | rfl | rfl <;> decide
      exact absurd hcp hnotin
  · refine validate_text_err_of_occurrence "onload=".toList (by decide)
      (by decide) (by decide) fn minl maxl flag u q v hq ?_
    intro _ c hc
    cases h2 : escChar c == [c] with
    | true => exact eq_of_beq h2
    | false =>
      have hne : escChar c ≠ [c] := by
        intro he
        rw [he] at h2
        simp at h2
      have hcl := toLower_of_escapable c hne
      have hcp : c ∈ "onload=".toList := by
        rw [← hq]
        exact hcl ▸ List.mem_map_of_mem Char.toLower hc
      have hnotin : c ∉ "onload=".toList := by
        rcases escapable_cases c hne with rfl | rfl | rfl | rfl | rfl <;> decide
      exact absurd hcp hnotin
  · exact validate_text_err_of_occurrence "<script".toList (by decide)
      (by decide) (by decide) fn minl maxl true u q v hq
      (fun hff => absurd hff (by simp))
  · intro p hp
    have h2 := (validate_text_ok_elim s fn minl maxl flag out h).2.2.2
    have h3 := List.any_eq_false.mp (by simpa using h2) p hp
    cases h4 : occursIn p (toLowerL out) with
    | false => rfl
    | true => exact absurd h4 h3

/-- Witness for C5 at concrete occurrences: `JavaScript:` is rejected with
escaping on, and `<SCRIPT` with `allow_html=True`. -/
theorem C5_witness :
    (toLowerL "JavaScript:".toList = "javascript:".toList ∧
      isErr (validate_text ("abc ".toList ++ ("JavaScript:".toList ++
        "x".toList)) "text" 0 1000 false) = true) ∧
    (toLowerL "<SCRIPT".toList = "<script".toList ∧
      isErr (validate_text ("hey ".toList ++ ("<SCRIPT".toList ++
        ">".toList)) "text" 0 1000 true) = true) :=
  ⟨⟨by decide, C5_scan_rejects_post_escape.1 "text" 0 1000 false
      "abc ".toList "JavaScript:".toList "x".toList (by decide)⟩,
   ⟨by decide, C5_scan_rejects_post_escape.2.2.1 "text" 0 1000
      "hey ".toList "<SCRIPT".toList ">".toList (by decide)⟩⟩

/-- A `validate_text` call whose length checks and scan pass returns the
processed text. -/
theorem validate_text_ok_intro (s : List Char) (fn : String)
    (minl maxl : Nat) (flag : Bool)
    (h1 : ¬((pyStrip s).length < minl)) (h2 : ¬(maxl < (pyStrip s).length))
    (h3 : dangerous_patterns.any (fun p => occursIn p (toLowerL
      (if flag then pyStrip s else htmlEscape (pyStrip s)))) = false) :
    validate_text s fn minl maxl flag
      = .ok (if flag then pyStrip s else htmlEscape (pyStrip s)) := by
  simp only [validate_text]
  rw [if_neg h1, if_neg h2, if_neg (by simp [h3])]

/-- C6 counterexample: with `allow_html=False` a second validation escapes
again — `a&b` validates to `a&amp;b`, which re-validates to `a&amp;amp;b`,
not to itself — so `validate_text` is not idempotent on its own output. -/
theorem C6_counterexample :
    validate_text "a&b".toList "text" 0 1000 false = .ok "a&amp;b".toList ∧
    validate_text "a&amp;b".toList "text" 0 1000 false
      = .ok "a&amp;amp;b".toList ∧
    "a&amp;amp;b".toList ≠ "a&amp;b".toList := by decide

/-- C6 (amended): `validate_text` is idempotent on its own output whenever
no escaping can re-fire: always when `allow_html=True`, and when
`allow_html=False` exactly on outputs fixed by HTML escaping (no `&`, `<`,
`>`, quotes); otherwise the second call escapes again and double-encodes. -/
theorem C6_revalidation_idempotent_when_escape_free :
    (∀ (s : List Char) (fn : String) (minl maxl : Nat) (out : List Char),
      validate_text s fn minl maxl true = .ok out →
      validate_text out fn minl maxl true = .ok out)
    ∧ (∀ (s : List Char) (fn : String) (minl maxl : Nat) (out : List Char),
      validate_text s fn minl maxl false = .ok out →
      htmlEscape out = out →
      validate_text out fn minl maxl false = .ok out) := by
  constructor
  · intro s fn minl maxl out h
    obtain ⟨hout, h1, h2, h3⟩ := validate_text_ok_elim s fn minl maxl true out h
    rw [if_pos rfl] at hout
    have hfix : pyStrip out = out := by
      rw [hout]
      exact pyStrip_idem s
    have h1a : ¬((pyStrip out).length < minl) := by
      rw [hfix, hout]
      exact h1
    have h2a : ¬(maxl < (pyStrip out).length) := by
      rw [hfix, hout]
      exact h2
    have h3a : dangerous_patterns.any (fun p => occursIn p (toLowerL
        (if true then pyStrip out else htmlEscape (pyStrip out)))) = false := by
      rw [if_pos rfl, hfix]
      exact h3
    have hres := validate_text_ok_intro out fn minl maxl true h1a h2a h3a
    rw [if_pos rfl, hfix] at hres
    exact hres
  · intro s fn minl maxl out h hfix
    obtain ⟨hout, h1, h2, h3⟩ :=
      validate_text_ok_elim s fn minl maxl false out h
    rw [if_neg (by simp)] at hout
    have hpw := htmlEscape_eq_self_pointwise out hfix
    have hq : ∀ c ∈ pyStrip s, escChar c = [c] := by
      intro c hc
      by_contra hne
      have hamp : '&' ∈ htmlEscape (pyStrip s) :=
        amp_mem_htmlEscape (pyStrip s) c hc hne
      rw [← hout] at hamp
      exact absurd (hpw '&' hamp) (by decide)
    have hout2 : out = pyStrip s := by
      rw [hout, htmlEscape_fixed_of (pyStrip s) hq]
    have hstripfix : pyStrip out = out := by
      rw [hout2]
      exact pyStrip_idem s
    have h1a : ¬((pyStrip out).length < minl) := by
      rw [hstripfix, hout2]
      exact h1
    have h2a : ¬(maxl < (pyStrip out).length) := by
      rw [hstripfix, hout2]
      exact h2
    have h3a : dangerous_patterns.any (fun p => occursIn p (toLowerL
        (if false then pyStrip out else htmlEscape (pyStrip out)))) = false := by
      rw [if_neg (by simp), hstripfix, hfix]
      exact h3
    have hres := validate_text_ok_intro out fn minl maxl false h1a h2a h3a
    rw [if_neg (by simp), hstripfix, hfix] at hres
    exact hres

/-- Witness for C6 at concrete accepted inputs. -/
theorem C6_witness :
    (validate_text " hi there ".toList "text" 0 1000 true
        = .ok "hi there".toList ∧
      validate_text "hi there".toList "text" 0 1000 true
        = .ok "hi there".toList) ∧
    (validate_text " plain ".toList "text" 0 1000 false
        = .ok "plain".toList ∧
      htmlEscape "plain".toList = "plain".toList ∧
      validate_text "plain".toList "text" 0 1000 false
        = .ok "plain".toList) :=
  ⟨⟨by decide, C6_revalidation_idempotent_when_escape_free.1
      " hi there ".toList "text" 0 1000 "hi there".toList (by decide)⟩,
   ⟨by decide, by decide, C6_revalidation_idempotent_when_escape_free.2
      " plain ".toList "text" 0 1000 "plain".toList (by decide) (by decide)⟩⟩

/-- C3: every successfully constructed `CalendarEvent` with an `end_time`
has it strictly after `start_time`; construction with `end_time <=
start_time` fails with a validation error; and, since assignment is
re-validated (`validate_assignment = True`), re-assigning such an
`end_time` fails as well. -/
theorem C3_end_time_after_start :
    (∀ (id : Option (List Char)) (c u : Option Int) (title : List Char)
      (desc : Option (List Char)) (st : Int) (et : Option Int)
      (loc : Option (List Char)) (ety : List Char) (att : List (List Char))
      (rem : Option Int) (rrule cal : Option (List Char)) (ad : Bool)
      (ev : CalendarEvent),
      mkCalendarEvent id c u title desc st et loc ety att rem rrule cal ad
        = .ok ev →
      ∀ e : Int, ev.end_time = some e → ev.start_time < e)
    ∧ (∀ (id : Option (List Char)) (c u : Option Int) (title : List Char)
      (desc : Option (List Char)) (st e : Int)
      (loc : Option (List Char)) (ety : List Char) (att : List (List Char))
      (rem : Option Int) (rrule cal : Option (List Char)) (ad : Bool),
      e ≤ st →
      isErr (mkCalendarEvent id c u title desc st (some e) loc ety att rem
        rrule cal ad) = true)
    ∧ (∀ (ev : CalendarEvent) (e : Int), e ≤ ev.start_time →
      isErr (ev.assignEndTime (some e)) = true) := by
  refine ⟨?_, ?_, ?_⟩
  · intro id c u title desc st et loc ety att rem rrule cal ad ev h e he
    simp only [mkCalendarEvent, bind, Except.bind, pure, Except.pure] at h
    iterate 16 all_goals try split at h
    all_goals first
      | exact Except.noConfusion h
      | (injection h with h2; subst h2; simp at he ⊢; all_goals omega)
  · intro id c u title desc st e loc ety att rem rrule cal ad hle
    simp only [mkCalendarEvent, bind, Except.bind, pure, Except.pure]
    iterate 16 all_goals try split
    all_goals first
      | rfl
      | omega
  · intro ev e hle
    simp only [CalendarEvent.assignEndTime]
    rw [if_pos hle]
    rfl

/-- Witness for C3 at concrete events and times. -/
theorem C3_witness :
    (mkCalendarEvent none none none ['T'] none 0 (some 10) none
        "personal".toList [] none none none false = .ok c3Event ∧
      c3Event.end_time = some 10 ∧ c3Event.start_time < 10) ∧
    ((5 : Int) ≤ 5 ∧
      isErr (mkCalendarEvent none none none ['T'] none 5 (some 5) none
        "personal".toList [] none none none false) = true) ∧
    ((0 : Int) ≤ c3Event.start_time ∧
      isErr (c3Event.assignEndTime (some 0)) = true) :=
  ⟨⟨by decide, rfl,
    C3_end_time_after_start.1 none none none ['T'] none 0 (some 10) none
      "personal".toList [] none none none false c3Event (by decide) 10 rfl⟩,
   ⟨le_refl 5,
    C3_end_time_after_start.2.1 none none none ['T'] none 5 5 none
      "personal".toList [] none none none false (le_refl 5)⟩,
   ⟨by decide,
    C3_end_time_after_start.2.2 c3Event 0 (by decide)⟩⟩

/-- Appending a fresh row makes it the `find?` result when nothing before
it matches. -/
theorem find?_append_of_none {α : Type} (p : α → Bool) (db : List α) (x : α)
    (h : ∀ r ∈ db, p r = false) (hx : p x = true) :
    (db ++ [x]).find? p = some x := by
  induction db with
  | nil => simp [List.find?, hx]
  | cons a rest ih =>
    have ha := h a (List.mem_cons_self a rest)
    simp only [List.cons_append, List.find?, ha]
    exact ih (fun r hr => h r (List.mem_cons_of_mem a hr))

/-- The `tags` column round-trips: `NULL` was stored for an empty list. -/
theorem tags_column_roundtrip (l : List (List Char)) :
    (if l.isEmpty then none else some l).getD [] = l := by
  cases l <;> simp

/-- C9 counterexample: the `TodoItem` validated from the raw title `A & B`
stores title `A &amp; B`, but reading it back re-runs the pydantic
validators in `_row_to_task`, HTML-escaping the title a second time to
`A &amp;amp; B` — so create-then-get is not field-for-field equal. -/
theorem C9_counterexample :
    mkTodoItem none none none "A & B".toList none "pending".toList
      "medium".toList none none [] none none = .ok c9Task ∧
    get_task (create_task [] "id1".toList 0 c9Task).2 "id1".toList
      = some (.ok c9TaskRead) ∧
    c9TaskRead.title ≠ c9Task.title := by decide

/-- C9 (amended): for every `TodoItem` that is a fixed point of payload
re-validation (in particular title/description free of HTML-escapable
characters and already stripped, tags already sanitized), creating it with
`create_task` under a fresh id and reading it back with `get_task` yields
exactly the created task, which equals the input on every field except the
server-assigned `id`, `created_at` and `updated_at`. -/
theorem C9_roundtrip_for_revalidation_fixed_points
    (db : List TaskRow) (genId : List Char) (now : Int) (t : TodoItem)
    (hcore : mkTodoCore t.title t.description t.status t.priority t.due_date
      t.completed_at t.tags t.assigned_to t.estimated_hours
        = .ok (coreOf t))
    (hfresh : ∀ r ∈ db, r.id ≠ genId)
    (hid : t.id = none ∨ t.id = some []) :
    (create_task db genId now t).1
        = { t with
            id := some genId, created_at := some now,
            updated_at := some now } ∧
    get_task (create_task db genId now t).2 genId
        = some (.ok (create_task db genId now t).1) := by
  constructor
  · simp only [create_task, if_pos hid]
  · simp only [create_task, if_pos hid, get_task]
    rw [find?_append_of_none _ db _
      (fun r hr => by simpa using hfresh r hr) (by simp)]
    simp only [Option.map]
    congr 1
    simp only [row_to_task, mkTodoItem]
    rw [show ((if t.tags.isEmpty then none else some t.tags).getD [])
        = t.tags from tags_column_roundtrip t.tags]
    rw [hcore]
    rfl

/-- Witness for C9 at a concrete escape-free task. -/
theorem C9_witness :
    (mkTodoCore c9PlainTask.title c9PlainTask.description c9PlainTask.status
        c9PlainTask.priority c9PlainTask.due_date c9PlainTask.completed_at
        c9PlainTask.tags c9PlainTask.assigned_to c9PlainTask.estimated_hours
      = .ok (coreOf c9PlainTask)) ∧
    ((create_task [] "uuid-1".toList 9 c9PlainTask).1
        = { c9PlainTask with
            id := some "uuid-1".toList,
            created_at := some 9, updated_at := some 9 } ∧
      get_task (create_task [] "uuid-1".toList 9 c9PlainTask).2
          "uuid-1".toList
        = some (.ok (create_task [] "uuid-1".toList 9 c9PlainTask).1)) :=
  ⟨by decide,
   C9_roundtrip_for_revalidation_fixed_points [] "uuid-1".toList 9
     c9PlainTask (by decide) (by intro r hr; cases hr) (Or.inl rfl)⟩

end Organizer
